import Mathlib

/-!
Verification of the ragas prompt-template engine and judgment aggregators.

Shallow embedding of:
* `src/ragas/llms/prompt.py`       (Prompt: validation, rendering, format,
  cache save/load, adaptation regrouping)
* `src/ragas/metrics/_answer_relevance.py` (AnswerRelevancy scoring)
* `src/ragas/metrics/_faithfulness.py`     (Faithfulness verdict-ratio score)
* `src/ragas/metrics/critique.py`          (AspectCritique majority vote)

Python dynamic values are modelled by a JSON-like tagged union; Python dicts
are insertion-ordered association lists; Python exceptions are an explicit
error type threaded through `Except`; floating NaN is modelled by `Option`
(`none` = NaN) over exact rationals, and the embedding arithmetic of the
cosine-similarity path uses real numbers.
-/

/-- JSON-like dynamic values: the shape of the Python objects stored in
`Prompt.examples` (`Example = t.Dict[str, t.Any]` in `ragas/llms/prompt.py`).
Mappings are insertion-ordered association lists, mirroring Python dicts.
Numbers are modelled as integers (the repository's templates store only
strings, lists, dicts and booleans). -/
inductive Json where
  | null : Json
  | bool (b : Bool) : Json
  | num (n : Int) : Json
  | str (s : String) : Json
  | arr (items : List Json) : Json
  | obj (fields : List (String × Json)) : Json
deriving Repr

/-- Python exception values raised by the embedded code.  `paramMismatch`
models the `ValueError` raised by `Prompt.format` (prompt.py:141-143): its
message names both the expected and the received key sets, which we keep as
the constructor's payload. -/
inductive PyErr where
  | valueError (msg : String) : PyErr
  | keyError (key : String) : PyErr
  | indexError (msg : String) : PyErr
  | paramMismatch (expected received : List String) : PyErr
deriving DecidableEq, Repr

/-- Python `str.lower` (the repository only lowercases ASCII tags such as
`"JSON"`). -/
def pyLower (s : String) : String := String.mk (s.data.map Char.toLower)

/-- Lowercase hexadecimal digit, used in JSON `\uXXXX` escapes. -/
def hexDigit (n : Nat) : Char :=
  if n < 10 then Char.ofNat (48 + n) else Char.ofNat (87 + n)

/-- Escaping of one character inside a JSON string literal, as produced by
Python `json.dumps(..., ensure_ascii=False)`: quote, backslash and control
characters are escaped, everything else (including non-ASCII) is kept. -/
def escJsonChar (c : Char) : List Char :=
  if c = '"' then ['\\', '"']
  else if c = '\\' then ['\\', '\\']
  else if c = '\n' then ['\\', 'n']
  else if c = '\t' then ['\\', 't']
  else if c = '\r' then ['\\', 'r']
  else if c = Char.ofNat 8 then ['\\', 'b']
  else if c = Char.ofNat 12 then ['\\', 'f']
  else if c.toNat < 32 then
    ['\\', 'u', '0', '0', hexDigit (c.toNat / 16), hexDigit (c.toNat % 16)]
  else [c]

/-- JSON string literal serialization (`json.dumps` on a `str`). -/
def dumpJsonString (s : String) : List Char :=
  '"' :: (s.data.flatMap escJsonChar ++ ['"'])

mutual

/-- Python `json.dumps(value, ensure_ascii=False)` with the default
separators `", "` and `": "` (prompt.py:101 uses no `indent`). -/
def dumps : Json → List Char
  | .null => "null".data
  | .bool true => "true".data
  | .bool false => "false".data
  | .num n => (toString n).data
  | .str s => dumpJsonString s
  | .arr items => '[' :: (dumpsArr items ++ [']'])
  | .obj fields => '{' :: (dumpsObj fields ++ ['}'])

/-- Array elements joined with `", "`. -/
def dumpsArr : List Json → List Char
  | [] => []
  | [x] => dumps x
  | x :: y :: t => dumps x ++ ',' :: ' ' :: dumpsArr (y :: t)

/-- Object entries `"key": value` joined with `", "`. -/
def dumpsObj : List (String × Json) → List Char
  | [] => []
  | [(k, v)] => dumpJsonString k ++ ':' :: ' ' :: dumps v
  | (k, v) :: x :: t =>
      dumpJsonString k ++ ':' :: ' ' :: dumps v ++ ',' :: ' ' :: dumpsObj (x :: t)

end

/-- Python single-character `str.replace (old, new)`: every occurrence of the
character `old` is replaced by the string `new` (prompt.py:104 and 129 only
replace the single characters `\x7b` and `\x7d`). -/
def replaceChar (s : List Char) (old : Char) (new : List Char) : List Char :=
  s.flatMap fun c => if c = old then new else [c]

/-- The escaping applied to serialized example values in JSON output mode:
`value.replace("\x7b", "\x7b\x7b").replace("\x7d", "\x7d\x7d")`
(prompt.py:103-107 and 128-132). -/
def escapeBraces (s : List Char) : List Char :=
  replaceChar (replaceChar s '{' ['{', '{']) '}' ['}', '}']

/-- Per-character form of `escapeBraces`, used in proofs. -/
def braceEsc (c : Char) : List Char :=
  if c = '{' then ['{', '{'] else if c = '}' then ['}', '}'] else [c]

/-- Python `str.replace (bb, b)` for a doubled character `b`: scans left to
right, replacing non-overlapping occurrences of `[b, b]` by `[b]`.  This is
the spec's de-escaping step ("halving doubled braces"). -/
def halvePairs (b : Char) : List Char → List Char
  | [] => []
  | [c] => [c]
  | c :: c2 :: t =>
    if c = b ∧ c2 = b then b :: halvePairs b t
    else c :: halvePairs b (c2 :: t)

/-- Modelled from the spec: de-escaping of a rendered example value by halving
doubled braces (spec section 8, round-trip property).  The source has no
inverse function; this is the spec's described operation. -/
def unescapeBraces (s : List Char) : List Char :=
  halvePairs '}' (halvePairs '{' s)

/-- Checks that every literal brace in the string occurs doubled: each
maximal occurrence of `\x7b` or `\x7d` is consumed two at a time. -/
def bracesDoubled : List Char → Bool
  | [] => true
  | [c] => if c = '{' ∨ c = '}' then false else true
  | c :: c2 :: t =>
    if c = '{' ∨ c = '}' then c2 = c && bracesDoubled t
    else bracesDoubled (c2 :: t)

/-- A Python example record: insertion-ordered mapping from variable name to
value (`Example = t.Dict[str, t.Any]`). -/
abbrev Example := List (String × Json)

/-- The `Prompt` pydantic model of `ragas/llms/prompt.py` (fields in
declaration order; `language` is an untyped pydantic-v1 field with default
`"en"`). -/
structure Prompt where
  name : String
  instruction : String
  examples : List Example
  input_keys : List String
  output_key : String
  output_type : String
  language : String
deriving Repr

namespace Prompt

/-- The serialized value of one example field (prompt.py:100-107 and
127-132): `json.dumps` it, then double braces when the output type is
JSON (case-insensitively), else leave it unescaped. -/
def render_value (output_type : String) (v : Json) : List Char :=
  let value := dumps v
  if pyLower output_type = "json" then escapeBraces value else value

/-- The example block built by `get_example_str` for one example
(prompt.py:125-133): one line `\n<key>: <value>` per field in insertion
order. -/
def render_example (output_type : String) (ex : Example) : List Char :=
  ex.foldl (fun acc kv =>
    acc ++ '\n' :: (kv.1.data ++ ':' :: ' ' :: render_value output_type kv.2)) []

/-- `Prompt.to_string` (prompt.py:90-116): instruction, example block,
unresolved input slots, and the completion cue. -/
def to_string (p : Prompt) : List Char :=
  let prompt_str := p.instruction.data ++ ['\n']
  let prompt_str := p.examples.foldl (fun acc ex =>
    (ex.foldl (fun a kv =>
      a ++ '\n' :: (kv.1.data ++ ':' :: ' ' :: render_value p.output_type kv.2)) acc)
    ++ ['\n']) prompt_str
  let prompt_str :=
    if p.input_keys ≠ [] then
      prompt_str ++ (p.input_keys.flatMap fun k =>
        '\n' :: (k.data ++ ':' :: ' ' :: '{' :: (k.data ++ ['}'])))
    else prompt_str
  if p.output_key ≠ "" then
    prompt_str ++ '\n' :: (p.output_key.data ++ [':', ' ', '\n'])
  else prompt_str

/-- Python list indexing `l[i]` with an `int` index: negative indices count
from the end; out-of-range indices raise `IndexError`. -/
def pyIndex {α : Type} (l : List α) (i : Int) : Except PyErr α :=
  let j := if i < 0 then i + l.length else i
  if h : 0 ≤ j ∧ j < (l.length : Int) then
    .ok (l.get ⟨j.toNat, by omega⟩)
  else
    .error (.indexError "list index out of range")

/-- `Prompt.get_example_str` (prompt.py:118-134): rejects `example_no`
greater or equal to the number of examples, then renders
`self.examples[example_no]`. -/
def get_example_str (p : Prompt) (example_no : Int) : Except PyErr (List Char) :=
  if example_no ≥ (p.examples.length : Int) then
    .error (.valueError ("example number " ++ toString example_no ++ " is out of range"))
  else
    match pyIndex p.examples example_no with
    | .error e => .error e
    | .ok ex => .ok (render_example p.output_type ex)

end Prompt

/-- Scans a replacement-field name up to the closing brace: returns the name
and the remainder after the `\x7d`, or `none` if the string ends first. -/
def fieldNameSplit : List Char → Option (List Char × List Char)
  | [] => none
  | '}' :: rest => some ([], rest)
  | c :: rest => (fieldNameSplit rest).map (fun nr => (c :: nr.1, nr.2))

/-- Python `str.format(**kwargs)` on the rendered prompt string, fuelled (the
fuel is a bound on the remaining length, so it never runs out when started
with `length + 1`).  Supported syntax is the subset exercised by the
repository's rendered prompts: doubled braces as escapes, `\x7bname\x7d`
replacement fields looked up in the keyword arguments, and the `Single
\x7b/\x7d` and nested-brace failures of CPython's parser.  Conversion and
format-spec suffixes (`!r`, `:>5`) are not modelled; no rendered template
uses them. -/
def pyFormatGo (kwargs : List (String × List Char)) : Nat → List Char → Except PyErr (List Char)
  | 0, _ => .error (.valueError "format fuel exhausted")
  | _ + 1, [] => .ok []
  | fuel + 1, '{' :: '{' :: t => (pyFormatGo kwargs fuel t).map ('{' :: ·)
  | fuel + 1, '}' :: '}' :: t => (pyFormatGo kwargs fuel t).map ('}' :: ·)
  | _ + 1, '}' :: _ => .error (.valueError "Single \x7d encountered in format string")
  | fuel + 1, '{' :: t =>
    match fieldNameSplit t with
    | none => .error (.valueError "Single \x7b encountered in format string")
    | some (nm, rest) =>
      if '{' ∈ nm then .error (.valueError "unexpected \x7b in field name")
      else
        match kwargs.lookup (String.mk nm) with
        | none => .error (.keyError (String.mk nm))
        | some v => (pyFormatGo kwargs fuel rest).map (v ++ ·)
  | fuel + 1, c :: t => (pyFormatGo kwargs fuel t).map (c :: ·)

/-- Python `str.format(**kwargs)`. -/
def pyStrFormat (s : List Char) (kwargs : List (String × List Char)) : Except PyErr (List Char) :=
  pyFormatGo kwargs (s.length + 1) s

/-- Python `set(a) == set(b)` for lists of strings: equality of the element
sets, ignoring order and multiplicity. -/
def pySetEq (a b : List String) : Bool :=
  a.all (b.contains ·) && b.all (a.contains ·)

namespace Prompt

/-- `Prompt.format` (prompt.py:136-145): checks that the supplied keyword
names equal `input_keys` as sets, then runs Python string substitution over
the full rendered prompt. -/
def format (p : Prompt) (kwargs : List (String × List Char)) : Except PyErr (List Char) :=
  if pySetEq p.input_keys (kwargs.map Prod.fst) then
    pyStrFormat p.to_string kwargs
  else
    .error (.paramMismatch p.input_keys (kwargs.map Prod.fst))

end Prompt

/-- Consumes JSON whitespace. -/
def skipWs : List Char → List Char
  | [] => []
  | c :: t => if c = ' ' ∨ c = '\n' ∨ c = '\t' ∨ c = '\r' then skipWs t else c :: t

/-- Hexadecimal digit character. -/
def isHexChar (c : Char) : Bool :=
  c.isDigit || ('a' ≤ c && c ≤ 'f') || ('A' ≤ c && c ≤ 'F')

/-- Consumes the body of a JSON string literal after the opening quote,
validating escapes; returns the remainder after the closing quote. -/
def jsonStringRest : List Char → Option (List Char)
  | [] => none
  | '"' :: t => some t
  | '\\' :: c :: t =>
    if c = '"' ∨ c = '\\' ∨ c = '/' ∨ c = 'b' ∨ c = 'f' ∨ c = 'n' ∨ c = 'r' ∨ c = 't' then
      jsonStringRest t
    else if c = 'u' then
      match t with
      | a :: b :: d :: e :: t2 =>
        if isHexChar a && isHexChar b && isHexChar d && isHexChar e then
          jsonStringRest t2
        else none
      | _ => none
    else none
  | '\\' :: [] => none
  | _ :: t => jsonStringRest t

/-- Consumes a JSON number; returns the remainder, or `none` if no number
starts here. -/
def jsonNumberRest (s : List Char) : Option (List Char) :=
  let s1 := match s with
    | '-' :: t => t
    | t => t
  let intDigits := s1.takeWhile Char.isDigit
  let s2 := s1.dropWhile Char.isDigit
  if intDigits = [] then none
  else if 1 < intDigits.length ∧ intDigits.head? = some '0' then none
  else
    let s3 := match s2 with
      | '.' :: t => if (t.takeWhile Char.isDigit) = [] then none else some (t.dropWhile Char.isDigit)
      | t => some t
    match s3 with
    | none => none
    | some s4 =>
      match s4 with
      | 'e' :: t | 'E' :: t =>
        let t1 := match t with
          | '+' :: t2 => t2
          | '-' :: t2 => t2
          | t2 => t2
        if (t1.takeWhile Char.isDigit) = [] then none else some (t1.dropWhile Char.isDigit)
      | t => some t

mutual

/-- Consumes one JSON value (fuelled recursive-descent validator); returns
the remainder. -/
def jsonValueRest : Nat → List Char → Option (List Char)
  | 0, _ => none
  | fuel + 1, s =>
    match skipWs s with
    | 'n' :: 'u' :: 'l' :: 'l' :: t => some t
    | 't' :: 'r' :: 'u' :: 'e' :: t => some t
    | 'f' :: 'a' :: 'l' :: 's' :: 'e' :: t => some t
    | '"' :: t => jsonStringRest t
    | '[' :: t =>
      (match skipWs t with
       | ']' :: t2 => some t2
       | t2 => jsonArrRest fuel t2)
    | '{' :: t =>
      (match skipWs t with
       | '}' :: t2 => some t2
       | t2 => jsonObjRest fuel t2)
    | s2 => jsonNumberRest s2

/-- Consumes the elements of a non-empty JSON array after `[`. -/
def jsonArrRest : Nat → List Char → Option (List Char)
  | 0, _ => none
  | fuel + 1, s =>
    match jsonValueRest fuel s with
    | none => none
    | some rest =>
      match skipWs rest with
      | ',' :: t => jsonArrRest fuel t
      | ']' :: t => some t
      | _ => none

/-- Consumes the entries of a non-empty JSON object after `\x7b`. -/
def jsonObjRest : Nat → List Char → Option (List Char)
  | 0, _ => none
  | fuel + 1, s =>
    match skipWs s with
    | '"' :: t =>
      (match jsonStringRest t with
       | none => none
       | some rest =>
         match skipWs rest with
         | ':' :: t2 =>
           (match jsonValueRest fuel t2 with
            | none => none
            | some rest2 =>
              match skipWs rest2 with
              | ',' :: t3 => jsonObjRest fuel t3
              | '}' :: t3 => some t3
              | _ => none)
         | _ => none)
    | _ => none

end

/-- Python `json.loads(s)` succeeding, i.e. `s` is one valid JSON document
(prompt.py:82 only uses the success or failure of `json.loads`). -/
def jsonValid (s : String) : Bool :=
  match jsonValueRest (s.length + 1) s.data with
  | some rest => skipWs rest = []
  | none => false

/-- The `values` dictionary seen by the `validate_prompt` root validator:
`.get` of an absent field is `none`.  `instruction` is kept as a dynamic
value because the validator compares it against both `""` and `[]`
(prompt.py:59-61). -/
structure PromptValues where
  instruction : Option Json
  examples : List Example
  input_keys : Option (List String)
  output_key : Option String
  output_type : String
deriving Repr

namespace Prompt

/-- The per-example checks of `validate_prompt` (prompt.py:66-86) for the
example at (0-based) position `no`: every input key and the output key must
be present, and in JSON output mode a string-valued output must parse as
JSON. -/
def check_example (input_keys : List String) (output_key : String)
    (output_type : String) (no : Nat) (ex : Example) : Except PyErr Unit :=
  match input_keys.find? (fun k => (ex.lookup k).isNone) with
  | some k =>
    .error (.valueError ("example " ++ toString (no + 1) ++
      " does not have the variable " ++ k ++ " in the definition"))
  | none =>
    if (ex.lookup output_key).isNone then
      .error (.valueError ("example " ++ toString (no + 1) ++
        " does not have the variable " ++ output_key ++ " in the definition"))
    else if pyLower output_type = "json" then
      match ex.lookup output_key with
      | some (.str s) =>
        if jsonValid s then .ok ()
        else .error (.valueError (output_key ++ " in example " ++ toString (no + 1) ++
          " is not in valid json format"))
      | _ => .ok ()
    else .ok ()

/-- Runs `check_example` over the example list in order. -/
def check_examples (input_keys : List String) (output_key : String)
    (output_type : String) : Nat → List Example → Except PyErr Unit
  | _, [] => .ok ()
  | no, ex :: rest =>
    match check_example input_keys output_key output_type no ex with
    | .error e => .error e
    | .ok _ => check_examples input_keys output_key output_type (no + 1) rest

/-- Python `x == ""` on a possibly-absent dynamic value: true exactly for a
present empty string (`None == ""` is false in Python). -/
def eqEmptyStr : Option Json → Bool
  | some (.str "") => true
  | _ => false

/-- Python `x == []` on a possibly-absent dynamic value: true exactly for a
present empty list. -/
def eqEmptyList : Option Json → Bool
  | some (.arr []) => true
  | _ => false

/-- The `validate_prompt` root validator (prompt.py:54-88), transcribed
faithfully: note that the second guard compares `instruction` (not
`input_keys`) against the empty list, exactly as the source does on line
61. -/
def validate_prompt (v : PromptValues) : Except PyErr PromptValues :=
  if v.instruction.isNone ∨ eqEmptyStr v.instruction then
    .error (.valueError "instruction cannot be empty")
  else if v.input_keys.isNone ∨ eqEmptyList v.instruction then
    .error (.valueError "input_keys cannot be empty")
  else if v.output_key.isNone ∨ v.output_key = some "" then
    .error (.valueError "output_key cannot be empty")
  else if ¬ v.examples.isEmpty then
    match check_examples (v.input_keys.getD []) (v.output_key.getD "")
        v.output_type 0 v.examples with
    | .error e => .error e
    | .ok _ => .ok v
  else .ok v

end Prompt

/-- Lookup of a key in a JSON object (`json.load(...)[key]` succeeding only
when the document is an object containing the key). -/
def jsonLookup : Json → String → Option Json
  | .obj fields, k => fields.lookup k
  | _, _ => none

/-- Coercion of a dynamic value to a Python `str`, when it is one. -/
def asString : Option Json → Option String
  | some (.str s) => some s
  | _ => none

namespace Prompt

/-- Pydantic `self.dict()` (prompt.py:214): the model's fields serialized as
a flat JSON object, one entry per field in declaration order.  This is
exactly the document `Prompt.save` writes to the cache file. -/
def dict (p : Prompt) : Json :=
  .obj [("name", .str p.name),
        ("instruction", .str p.instruction),
        ("examples", .arr (p.examples.map (fun ex => .obj ex))),
        ("input_keys", .arr (p.input_keys.map .str)),
        ("output_key", .str p.output_key),
        ("output_type", .str p.output_type),
        ("language", .str p.language)]

/-- The document `Prompt.save` (prompt.py:206-214) writes for a prompt:
`json.dump(self.dict(), file)`. -/
def saved_file (p : Prompt) : Json := p.dict

/-- Pydantic construction `Prompt(**kwargs)` from a JSON object of keyword
arguments: extract each field (defaults applied for the optional ones) and
run the `validate_prompt` root validator. -/
def from_kwargs (kw : Json) : Except PyErr Prompt :=
  let instruction := jsonLookup kw "instruction"
  let examples := match jsonLookup kw "examples" with
    | some (.arr l) => l.map (fun e => match e with | .obj f => f | _ => [])
    | _ => []
  let input_keys := match jsonLookup kw "input_keys" with
    | some (.arr l) => some (l.map (fun x => (asString (some x)).getD ""))
    | _ => none
  let output_key := asString (jsonLookup kw "output_key")
  let output_type := (asString (jsonLookup kw "output_type")).getD "json"
  match validate_prompt ⟨instruction, examples, input_keys, output_key, output_type⟩ with
  | .error e => .error e
  | .ok _ =>
    .ok ⟨(asString (jsonLookup kw "name")).getD "",
         (asString instruction).getD "",
         examples,
         input_keys.getD [],
         output_key.getD "",
         output_type,
         (asString (jsonLookup kw "language")).getD "en"⟩

/-- `Prompt._load` (prompt.py:216-220) applied to the parsed cache file:
`cls(**json.load(open(path))["kwargs"])`.  Python raises `KeyError` when the
document has no `"kwargs"` entry. -/
def load (file : Json) : Except PyErr Prompt :=
  match jsonLookup file "kwargs" with
  | none => .error (.keyError "kwargs")
  | some kw => from_kwargs kw

/-- The cache-hit path of `Prompt.adapt` (prompt.py:151-153): the Cache Store
is a map from `(language, name)` to a stored file; when an entry exists for
the target language and the prompt's name, adapt returns `_load`'s result
immediately (issuing no model calls).  A cache miss (`none`) would continue
into the translation loop, which is not taken on this path. -/
def adapt_cached (p : Prompt) (language : String)
    (cache : List ((String × String) × Json)) : Option (Except PyErr Prompt) :=
  match cache.lookup (language, p.name) with
  | some file => some (load file)
  | none => none

/-- The regrouping slices of `Prompt.adapt` (prompt.py:179-183):
`[results[i : i + per] for i in range(0, len(results), per)]` with chunk
size `per = numInputKeys + 1`. -/
def grouped_results (results : List String) (numInputKeys : Nat) : List (List String) :=
  if h : results = [] then []
  else results.take (numInputKeys + 1) ::
    grouped_results (results.drop (numInputKeys + 1)) numInputKeys
termination_by results.length
decreasing_by
  simp only [List.length_drop]
  have hl : 0 < results.length := List.length_pos.mpr h
  omega

/-- The internal-consistency assertion of `Prompt.adapt` (prompt.py:184-186):
`len(grouped_results) == len(self.examples)`. -/
def adapt_group_check (results : List String) (input_keys : List String)
    (examples : List Example) : Bool :=
  (grouped_results results input_keys.length).length == examples.length

end Prompt

noncomputable section

namespace AnswerRelevancy

/-- Dot product of two embedding vectors (`np.dot`); trailing entries of the
longer vector are ignored, matching fixed-dimension embeddings. -/
def np_dot (u v : List ℝ) : ℝ := (List.zipWith (· * ·) u v).sum

/-- Euclidean norm (`np.linalg.norm`). -/
def np_norm (u : List ℝ) : ℝ := Real.sqrt (np_dot u u)

/-- Arithmetic mean of an array (`np.mean`). -/
def np_mean (l : List ℝ) : ℝ := l.sum / l.length

/-- `AnswerRelevancy.calculate_similarity` (_answer_relevance.py:90-106): the
cosine similarity of the reference question embedding with each generated
question embedding, `dot(g, q) / (norm(g) * norm(q))`. -/
def calculate_similarity (question_vec : List ℝ) (gen_question_vecs : List (List ℝ)) : List ℝ :=
  gen_question_vecs.map (fun g => np_dot g question_vec / (np_norm g * np_norm question_vec))

/-- `AnswerRelevancy._calculate_score` (_answer_relevance.py:108-115) after
embedding: `cosine_sim.mean() * int(not committal)` where `committal` is
`np.any` of the per-candidate noncommittal flags. -/
def calculate_score (question_vec : List ℝ) (gen_question_vecs : List (List ℝ))
    (noncommittal_flags : List Bool) : ℝ :=
  let committal := noncommittal_flags.any id
  np_mean (calculate_similarity question_vec gen_question_vecs) *
    (if committal then 0 else 1)

end AnswerRelevancy

end

namespace Faithfulness

/-- The verdict mapping of `Faithfulness._compute_score`
(_faithfulness.py:153-159): `verdict_score_map.get(verdict.lower(), np.nan)`
with `verdict_score_map = ("1": 1, "0": 0, "null": nan)`; NaN is modelled as
`none`. -/
def verdict_score_map (verdict : String) : Option ℚ :=
  if pyLower verdict = "1" then some 1
  else if pyLower verdict = "0" then some 0
  else if pyLower verdict = "null" then none
  else none

/-- Python `sum` over floats with NaN propagation: a left fold from `0`
where any NaN operand makes the result NaN. -/
def nanAdd : Option ℚ → Option ℚ → Option ℚ
  | some a, some b => some (a + b)
  | _, _ => none

/-- Python `sum(...)` of the mapped verdict scores. -/
def pySum (l : List (Option ℚ)) : Option ℚ := l.foldl nanAdd (some 0)

/-- `Faithfulness._compute_score` (_faithfulness.py:148-168) on the parsed
statement list: each statement contributes `verdict_score_map` of its
`verdict` field (`.get("verdict", "")`, so an absent verdict reads as `""`);
the score is the NaN-propagating sum divided by the number of statements,
and NaN for an empty list. -/
def compute_score (output : List (Option String)) : Option ℚ :=
  let faithful_statements :=
    pySum (output.map (fun st => verdict_score_map (st.getD "")))
  let num_statements := output.length
  if num_statements ≠ 0 then
    faithful_statements.map (fun f => f / (num_statements : ℚ))
  else none

end Faithfulness

namespace AspectCritique

/-- `ANSWER_DICT.get(item.get("verdict", nan), nan)` (critique.py:100-111):
the verdict field mapped through `("1": 1, "0": 0)` with NaN (`none`) for an
absent verdict or any other token.  No lowercasing here, unlike
Faithfulness. -/
def answer_dict (verdict : Option String) : Option ℚ :=
  match verdict with
  | some s => if s = "1" then some 1 else if s = "0" then some 0 else none
  | none => none

/-- First-seen-order list of the distinct elements of `l`, as the keys of a
Python `collections.Counter` built from `l`. -/
def uniqueKeys {α : Type} [DecidableEq α] (l : List α) : List α :=
  l.foldl (fun acc a => if a ∈ acc then acc else acc ++ [a]) []

/-- Python `Counter(l).most_common(1)[0][0]`: an element of maximal
multiplicity, ties resolved in favour of the first-seen element; `none` when
`l` is empty (where Python's `[0]` raises `IndexError`). -/
def mostCommon {α : Type} [DecidableEq α] (l : List α) : Option α :=
  (uniqueKeys l).foldl (fun best k =>
    match best with
    | none => some k
    | some b => if l.count k > l.count b then some k else some b) none

/-- `AspectCritique.__post_init__` (critique.py:74-83): rejects an empty name
or definition, then stores `strictness` bumped to the next integer when
even, so that the stored value is always odd. -/
def post_init (name definition : String) (strictness : Int) : Except PyErr Int :=
  if name = "" then .error (.valueError "Expects a name")
  else if definition = "" then .error (.valueError "Expects definition")
  else .ok (if strictness % 2 ≠ 0 then strictness else strictness + 1)

/-- `AspectCritique._compute_score` (critique.py:99-113): majority vote of
the mapped verdicts when `strictness > 1`, else the first response's mapped
verdict directly.  Python raises `IndexError` on an empty response list in
both branches. -/
def compute_score (strictness : Int) (responses : List (Option String)) :
    Except PyErr (Option ℚ) :=
  if strictness > 1 then
    match mostCommon (responses.map answer_dict) with
    | some m => .ok m
    | none => .error (.indexError "list index out of range")
  else
    match responses with
    | [] => .error (.indexError "list index out of range")
    | r :: _ => .ok (answer_dict r)

end AspectCritique

/-! Helper lemmas about brace escaping. -/

theorem escapeBraces_eq_flatMap (s : List Char) : escapeBraces s = s.flatMap braceEsc := by
  induction s with
  | nil => rfl
  | cons c t ih =>
    simp only [escapeBraces, replaceChar, List.flatMap_cons, List.flatMap_append] at *
    by_cases hc : c = '{'
    · subst hc; simpa [braceEsc] using ih
    · by_cases hc2 : c = '}'
      · subst hc2; simpa [braceEsc] using ih
      · simpa [braceEsc, hc, hc2] using ih

theorem halvePairs_cons_ne (b c : Char) (t : List Char) (h : c ≠ b) :
    halvePairs b (c :: t) = c :: halvePairs b t := by
  cases t with
  | nil => rfl
  | cons c2 t2 => simp [halvePairs, h]

theorem halvePairs_pair (b : Char) (t : List Char) :
    halvePairs b (b :: b :: t) = b :: halvePairs b t := by
  simp [halvePairs]

theorem halvePairs_open_escape (s : List Char) :
    halvePairs '{' (s.flatMap braceEsc) =
      s.flatMap (fun c => if c = '}' then ['}', '}'] else [c]) := by
  induction s with
  | nil => rfl
  | cons c t ih =>
    rw [List.flatMap_cons, List.flatMap_cons]
    by_cases hc : c = '{'
    · subst hc
      have hb : braceEsc '{' = ['{', '{'] := by decide
      have hne : ('{' : Char) ≠ '}' := by decide
      rw [hb, if_neg hne]
      simpa [halvePairs_pair] using ih
    · by_cases hc2 : c = '}'
      · subst hc2
        have hb : braceEsc '}' = ['}', '}'] := by decide
        have h1 : ('}' : Char) ≠ '{' := by decide
        rw [hb, if_pos rfl, List.cons_append, List.cons_append, List.nil_append,
          halvePairs_cons_ne '{' '}' _ h1, halvePairs_cons_ne '{' '}' _ h1, ih]
        rfl
      · have hb : braceEsc c = [c] := by simp [braceEsc, hc, hc2]
        rw [hb, if_neg hc2, List.cons_append, List.nil_append,
          halvePairs_cons_ne '{' c _ hc, ih]
        rfl

theorem halvePairs_close_unescape (s : List Char) :
    halvePairs '}' (s.flatMap (fun c => if c = '}' then ['}', '}'] else [c])) = s := by
  induction s with
  | nil => rfl
  | cons c t ih =>
    by_cases hc : c = '}'
    · subst hc
      simpa [halvePairs_pair] using ih
    · simp only [List.flatMap_cons, if_neg hc, List.cons_append, List.nil_append,
        halvePairs_cons_ne '}' c _ hc, ih]

theorem unescape_escape (s : List Char) : unescapeBraces (escapeBraces s) = s := by
  rw [escapeBraces_eq_flatMap, unescapeBraces, halvePairs_open_escape,
    halvePairs_close_unescape]

theorem bracesDoubled_cons_ne (c : Char) (t : List Char) (h1 : c ≠ '{') (h2 : c ≠ '}') :
    bracesDoubled (c :: t) = bracesDoubled t := by
  cases t with
  | nil => simp [bracesDoubled, h1, h2]
  | cons c2 t2 => simp [bracesDoubled, h1, h2]

theorem bracesDoubled_escape (s : List Char) :
    bracesDoubled (s.flatMap braceEsc) = true := by
  induction s with
  | nil => rfl
  | cons c t ih =>
    by_cases hc : c = '{'
    · subst hc; simpa [braceEsc, bracesDoubled] using ih
    · by_cases hc2 : c = '}'
      · subst hc2; simpa [braceEsc, bracesDoubled] using ih
      · simpa [braceEsc, hc, hc2, bracesDoubled_cons_ne c _ hc hc2] using ih

/-- C8: for a Template whose output type is json (case-insensitively), each
example field value emitted by to_string and get_example_str is the JSON
serialization with every literal brace doubled, and halving the doubled
braces reproduces the serialized value exactly; when the output type is not
json, the value is emitted unescaped. -/
theorem c8_brace_escaping_roundtrip (output_type : String) (v : Json) :
    (pyLower output_type = "json" →
      Prompt.render_value output_type v = escapeBraces (dumps v) ∧
      bracesDoubled (Prompt.render_value output_type v) = true ∧
      unescapeBraces (Prompt.render_value output_type v) = dumps v) ∧
    (pyLower output_type ≠ "json" →
      Prompt.render_value output_type v = dumps v) ∧
    (∀ k : String, Prompt.render_example output_type [(k, v)] =
      '\n' :: (k.data ++ ':' :: ' ' :: Prompt.render_value output_type v)) := by
  refine ⟨fun h => ?_, fun h => ?_, fun k => ?_⟩
  · have hrv : Prompt.render_value output_type v = escapeBraces (dumps v) := by
      simp [Prompt.render_value, h]
    refine ⟨hrv, ?_, ?_⟩
    · rw [hrv, escapeBraces_eq_flatMap]
      exact bracesDoubled_escape (dumps v)
    · rw [hrv]
      exact unescape_escape (dumps v)
  · simp [Prompt.render_value, h]
  · simp [Prompt.render_example]

theorem c8_witness :
    pyLower "JSON" = "json" ∧
    (Prompt.render_value "JSON" (Json.str "a") = escapeBraces (dumps (Json.str "a")) ∧
     bracesDoubled (Prompt.render_value "JSON" (Json.str "a")) = true ∧
     unescapeBraces (Prompt.render_value "JSON" (Json.str "a")) = dumps (Json.str "a")) :=
  ⟨by decide, (c8_brace_escaping_roundtrip "JSON" (Json.str "a")).1 (by decide)⟩

/-! Length of the adaptation regrouping slices. -/

theorem grouped_results_length_aux (k : Nat) :
    ∀ (n : Nat) (results : List String), results.length ≤ n →
      (Prompt.grouped_results results k).length = (results.length + k) / (k + 1) := by
  intro n
  induction n with
  | zero =>
    intro results h
    have hr : results = [] := List.eq_nil_of_length_eq_zero (Nat.le_zero.mp h)
    subst hr
    rw [Prompt.grouped_results]
    simp only [dif_pos rfl, List.length_nil, Nat.zero_add]
    exact (Nat.div_eq_of_lt (Nat.lt_succ_self k)).symm
  | succ n ih =>
    intro results h
    by_cases hr : results = []
    · subst hr
      rw [Prompt.grouped_results]
      simp only [dif_pos rfl, List.length_nil, Nat.zero_add]
      exact (Nat.div_eq_of_lt (Nat.lt_succ_self k)).symm
    · rw [Prompt.grouped_results, dif_neg hr]
      have hlen : (results.drop (k + 1)).length ≤ n := by
        have hpos : 0 < results.length := List.length_pos.mpr hr
        simp only [List.length_drop]
        omega
      rw [List.length_cons, ih _ hlen]
      have hpos : 0 < results.length := List.length_pos.mpr hr
      simp only [List.length_drop]
      rcases Nat.lt_or_ge results.length (k + 1) with hlt | hge
      · have e0 : results.length - (k + 1) = 0 := by omega
        rw [e0]
        have e1 : (0 + k) / (k + 1) = 0 := by
          simpa using Nat.div_eq_of_lt (Nat.lt_succ_self k)
        rw [e1]
        have e2 : (results.length + k) / (k + 1) = 1 := by
          apply Nat.div_eq_of_lt_le <;> omega
        rw [e2]
      · have e1 : results.length - (k + 1) + k = results.length - 1 := by omega
        have e2 : results.length + k = (results.length - 1) + (k + 1) := by omega
        rw [e1, e2, Nat.add_div_right _ (Nat.succ_pos k)]

theorem grouped_results_length (results : List String) (k : Nat) :
    (Prompt.grouped_results results k).length = (results.length + k) / (k + 1) :=
  grouped_results_length_aux k results.length results (le_refl _)

/-- C3 counterexample: a flat results list of length 4 with two input keys
(chunk size 3) and two examples passes the consistency assertion even though
4 is not a multiple of 3 — the check compares chunk counts, not
divisibility. -/
theorem c3_counterexample :
    Prompt.adapt_group_check ["r1", "r2", "r3", "r4"] ["k1", "k2"] [[], []] = true ∧
    ¬ ((2 + 1) ∣ 4) := by
  constructor
  · simp [Prompt.adapt_group_check, grouped_results_length]
  · decide

/-- C3 (amended): the adapt consistency assertion passes exactly when the
number of chunks, the ceiling of len(results) divided by len(input_keys)+1,
equals the example count; a flat list whose length is not a multiple of the
chunk size can still pass when its chunk count matches. -/
theorem c3_amended (results : List String) (input_keys : List String)
    (examples : List Example) :
    Prompt.adapt_group_check results input_keys examples = true ↔
      (results.length + input_keys.length) / (input_keys.length + 1) =
        examples.length := by
  simp [Prompt.adapt_group_check, grouped_results_length]

/-- C4 counterexample: on a prompt holding one example, get_example_str with
the negative index -1 does not raise; it silently returns the rendered text
of the last example (Python negative indexing). -/
theorem c4_counterexample :
    (Prompt.get_example_str
      ⟨"p", "inst", [[("q", Json.str "x")]], ["q"], "out", "json", "en"⟩
      (-1)).isOk = true := by
  rfl

/-- C4 (amended): get_example_str raises the range error exactly for indices
greater or equal to the example count; a negative index within
-len..-1 silently returns the example at position len+index, and an index
below -len raises an untyped IndexError from list indexing rather than the
range error naming the index. -/
theorem c4_amended (p : Prompt) (i : Int) :
    (i ≥ (p.examples.length : Int) →
      Prompt.get_example_str p i =
        .error (.valueError ("example number " ++ toString i ++ " is out of range"))) ∧
    (i + (p.examples.length : Int) < 0 →
      Prompt.get_example_str p i = .error (.indexError "list index out of range")) ∧
    (i < 0 → 0 ≤ i + (p.examples.length : Int) →
      ∃ ex, p.examples.get? (i + (p.examples.length : Int)).toNat = some ex ∧
        Prompt.get_example_str p i = .ok (Prompt.render_example p.output_type ex)) ∧
    (0 ≤ i → i < (p.examples.length : Int) →
      ∃ ex, p.examples.get? i.toNat = some ex ∧
        Prompt.get_example_str p i = .ok (Prompt.render_example p.output_type ex)) := by
  refine ⟨fun h => ?_, fun h => ?_, fun h1 h2 => ?_, fun h1 h2 => ?_⟩
  · rw [Prompt.get_example_str, if_pos h]
  · have hlt : ¬ i ≥ (p.examples.length : Int) := by omega
    rw [Prompt.get_example_str, if_neg hlt]
    have hio : i < 0 := by omega
    have hcond : ¬ (0 ≤ (if i < 0 then i + (p.examples.length : Int) else i) ∧
        (if i < 0 then i + (p.examples.length : Int) else i) < (p.examples.length : Int)) := by
      rw [if_pos hio]; omega
    rw [Prompt.pyIndex]
    simp only [dif_neg hcond]
  · have hlt : ¬ i ≥ (p.examples.length : Int) := by omega
    rw [Prompt.get_example_str, if_neg hlt]
    have hcond : (0 ≤ (if i < 0 then i + (p.examples.length : Int) else i) ∧
        (if i < 0 then i + (p.examples.length : Int) else i) < (p.examples.length : Int)) := by
      rw [if_pos h1]; omega
    rw [Prompt.pyIndex]
    simp only [dif_pos hcond]
    have hn : ((if i < 0 then i + (p.examples.length : Int) else i).toNat) < p.examples.length := by
      rw [if_pos h1] at hcond ⊢
      omega
    refine ⟨p.examples.get ⟨(i + (p.examples.length : Int)).toNat, by rw [if_pos h1] at hn; exact hn⟩, ?_, ?_⟩
    · exact List.get?_eq_get _
    · simp only [if_pos h1]
  · have hlt : ¬ i ≥ (p.examples.length : Int) := by omega
    rw [Prompt.get_example_str, if_neg hlt]
    have hio : ¬ i < 0 := by omega
    have hcond : (0 ≤ (if i < 0 then i + (p.examples.length : Int) else i) ∧
        (if i < 0 then i + (p.examples.length : Int) else i) < (p.examples.length : Int)) := by
      rw [if_neg hio]; omega
    rw [Prompt.pyIndex]
    simp only [dif_pos hcond]
    have hn : i.toNat < p.examples.length := by
      rw [if_neg hio] at hcond
      omega
    refine ⟨p.examples.get ⟨i.toNat, hn⟩, ?_, ?_⟩
    · exact List.get?_eq_get _
    · simp only [if_neg hio]

theorem c4_witness :
    Prompt.get_example_str
      ⟨"p2", "inst", [[("q", Json.str "x")]], ["q"], "out", "json", "en"⟩ 2 =
      .error (.valueError ("example number " ++ toString (2 : Int) ++ " is out of range")) :=
  (c4_amended ⟨"p2", "inst", [[("q", Json.str "x")]], ["q"], "out", "json", "en"⟩ 2).1
    (by decide)

/-! Helper lemmas for the NaN-propagating verdict sum. -/

theorem foldl_nanAdd_none (t : List (Option ℚ)) :
    List.foldl Faithfulness.nanAdd none t = none := by
  induction t with
  | nil => rfl
  | cons x t ih =>
    have hx : Faithfulness.nanAdd none x = none := by cases x <;> rfl
    rw [List.foldl_cons, hx, ih]

theorem foldl_verdict_sum (l : List (Option String)) :
    ∀ a : ℚ,
      List.foldl Faithfulness.nanAdd (some a)
        (l.map (fun st => Faithfulness.verdict_score_map (st.getD ""))) =
      (if l.all (fun st =>
            pyLower (st.getD "") == "1" || pyLower (st.getD "") == "0") then
        some (a + (l.countP (fun st => pyLower (st.getD "") == "1") : ℚ))
      else none) := by
  induction l with
  | nil => intro a; simp
  | cons st t ih =>
    intro a
    rw [List.map_cons, List.foldl_cons]
    by_cases h1 : pyLower (st.getD "") = "1"
    · have hv : Faithfulness.verdict_score_map (st.getD "") = some 1 := by
        simp [Faithfulness.verdict_score_map, h1]
      rw [hv]
      have hadd : Faithfulness.nanAdd (some a) (some 1) = some (a + 1) := rfl
      rw [hadd, ih (a + 1)]
      by_cases ht : t.all (fun st =>
          pyLower (st.getD "") == "1" || pyLower (st.getD "") == "0") = true
      · rw [if_pos ht]
        have hall : (st :: t).all (fun st =>
            pyLower (st.getD "") == "1" || pyLower (st.getD "") == "0") = true := by
          simp [List.all_cons, ht, h1]
        rw [if_pos hall]
        have hcount : List.countP (fun st => pyLower (st.getD "") == "1") (st :: t) =
            List.countP (fun st => pyLower (st.getD "") == "1") t + 1 := by
          rw [List.countP_cons]
          simp [h1]
        rw [hcount]
        simp only [Option.some.injEq]
        push_cast
        ring
      · rw [if_neg ht]
        have hall : ¬ ((st :: t).all (fun st =>
            pyLower (st.getD "") == "1" || pyLower (st.getD "") == "0") = true) := by
          simp only [List.all_cons, Bool.and_eq_true]
          intro hcontra
          exact ht hcontra.2
        rw [if_neg hall]
    · by_cases h0 : pyLower (st.getD "") = "0"
      · have hv : Faithfulness.verdict_score_map (st.getD "") = some 0 := by
          simp [Faithfulness.verdict_score_map, h1, h0]
        rw [hv]
        have hadd : Faithfulness.nanAdd (some a) (some 0) = some (a + 0) := rfl
        rw [hadd, ih (a + 0)]
        by_cases ht : t.all (fun st =>
            pyLower (st.getD "") == "1" || pyLower (st.getD "") == "0") = true
        · rw [if_pos ht]
          have hall : (st :: t).all (fun st =>
              pyLower (st.getD "") == "1" || pyLower (st.getD "") == "0") = true := by
            simp [List.all_cons, ht, h0]
          rw [if_pos hall]
          have hcount : List.countP (fun st => pyLower (st.getD "") == "1") (st :: t) =
              List.countP (fun st => pyLower (st.getD "") == "1") t := by
            rw [List.countP_cons]
            simp [h1]
          rw [hcount]
          simp only [Option.some.injEq]
          ring
        · rw [if_neg ht]
          have hall : ¬ ((st :: t).all (fun st =>
              pyLower (st.getD "") == "1" || pyLower (st.getD "") == "0") = true) := by
            simp only [List.all_cons, Bool.and_eq_true]
            intro hcontra
            exact ht hcontra.2
          rw [if_neg hall]
      · have hv : Faithfulness.verdict_score_map (st.getD "") = none := by
          simp [Faithfulness.verdict_score_map, h1, h0]
        rw [hv]
        have hadd : Faithfulness.nanAdd (some a) none = none := rfl
        rw [hadd, foldl_nanAdd_none]
        have hall : ¬ ((st :: t).all (fun st =>
            pyLower (st.getD "") == "1" || pyLower (st.getD "") == "0") = true) := by
          simp [List.all_cons, h1, h0]
        rw [if_neg hall]

/-- C6: the Faithfulness score maps each verdict token case-insensitively
with 1 to 1, 0 to 0 and anything else (including -1, null, or a missing
verdict) to NaN, returns the NaN-propagating sum of mapped values divided by
the statement count (so it equals the fraction of 1-verdicts when all
verdicts are 1 or 0, and NaN if any verdict is unmapped), and yields NaN for
an empty statement list; verdicts 1,1,0 score 2/3. -/
theorem c6_verdict_ratio_mean :
    (∀ l : List (Option String),
      Faithfulness.compute_score l =
        if l.length = 0 then none
        else if l.all (fun st =>
            pyLower (st.getD "") == "1" || pyLower (st.getD "") == "0") then
          some ((l.countP (fun st => pyLower (st.getD "") == "1") : ℚ) / (l.length : ℚ))
        else none) ∧
    Faithfulness.compute_score (["1", "1", "0"].map some) = some (2 / 3) ∧
    Faithfulness.compute_score [] = none ∧
    Faithfulness.compute_score (["1", "null"].map some) = none := by
  have hmain : ∀ l : List (Option String),
      Faithfulness.compute_score l =
        if l.length = 0 then none
        else if l.all (fun st =>
            pyLower (st.getD "") == "1" || pyLower (st.getD "") == "0") then
          some ((l.countP (fun st => pyLower (st.getD "") == "1") : ℚ) / (l.length : ℚ))
        else none := by
    intro l
    by_cases hl : l.length = 0
    · have : l = [] := List.eq_nil_of_length_eq_zero hl
      subst this
      rfl
    · rw [if_neg hl]
      simp only [Faithfulness.compute_score, Faithfulness.pySum,
        foldl_verdict_sum l 0, if_neg hl, if_pos hl]
      by_cases hall : (l.all fun st =>
          pyLower (st.getD "") == "1" || pyLower (st.getD "") == "0") = true
      · rw [if_pos hall, if_pos hall]
        simp
      · rw [if_neg hall, if_neg hall]
        rfl
  refine ⟨hmain, ?_, rfl, rfl⟩
  rw [hmain (["1", "1", "0"].map some)]
  rw [if_neg (by decide), if_pos (by decide)]
  have hc : List.countP (fun st => pyLower (st.getD "") == "1")
      (["1", "1", "0"].map some) = 2 := by decide
  have hlen : ((["1", "1", "0"].map some).length) = 3 := rfl
  rw [hc, hlen]
  norm_num

/-! Helper lemmas for the Counter-based majority vote. -/

theorem foldl_uniqueKeys_mem {α : Type} [DecidableEq α] (l : List α) :
    ∀ (acc : List α) (a : α),
      (a ∈ l.foldl (fun acc x => if x ∈ acc then acc else acc ++ [x]) acc) ↔
        a ∈ acc ∨ a ∈ l := by
  induction l with
  | nil => intro acc a; simp
  | cons x t ih =>
    intro acc a
    rw [List.foldl_cons]
    by_cases hx : x ∈ acc
    · rw [if_pos hx, ih]
      constructor
      · rintro (h | h)
        · exact Or.inl h
        · exact Or.inr (List.mem_cons_of_mem x h)
      · rintro (h | h)
        · exact Or.inl h
        · rcases List.mem_cons.mp h with h2 | h2
          · subst h2; exact Or.inl hx
          · exact Or.inr h2
    · rw [if_neg hx, ih]
      simp only [List.mem_append, List.mem_singleton, List.mem_cons]
      tauto

theorem mem_uniqueKeys {α : Type} [DecidableEq α] (l : List α) (a : α) :
    a ∈ AspectCritique.uniqueKeys l ↔ a ∈ l := by
  rw [AspectCritique.uniqueKeys]
  simpa using foldl_uniqueKeys_mem l [] a

theorem foldl_mostCommon_max {α : Type} [DecidableEq α] (l : List α) (keys : List α) :
    ∀ b : α,
      ∃ m, keys.foldl (fun best k =>
          match best with
          | none => some k
          | some bb => if l.count k > l.count bb then some k else some bb)
          (some b) = some m ∧
        (m = b ∨ m ∈ keys) ∧ l.count b ≤ l.count m ∧
        ∀ k ∈ keys, l.count k ≤ l.count m := by
  induction keys with
  | nil =>
    intro b
    exact ⟨b, rfl, Or.inl rfl, le_refl _, by simp⟩
  | cons k t ih =>
    intro b
    rw [List.foldl_cons]
    show ∃ m, t.foldl _ (if l.count k > l.count b then some k else some b) = some m ∧ _
    by_cases hk : l.count k > l.count b
    · rw [if_pos hk]
      obtain ⟨m, hm, hmem, hle, hall⟩ := ih k
      refine ⟨m, hm, ?_, le_trans (le_of_lt hk) hle, ?_⟩
      · rcases hmem with h | h
        · exact Or.inr (h ▸ List.mem_cons_self k t)
        · exact Or.inr (List.mem_cons_of_mem k h)
      · intro k2 hk2
        rcases List.mem_cons.mp hk2 with h2 | h2
        · subst h2; exact hle
        · exact hall k2 h2
    · rw [if_neg hk]
      obtain ⟨m, hm, hmem, hle, hall⟩ := ih b
      refine ⟨m, hm, ?_, hle, ?_⟩
      · rcases hmem with h | h
        · exact Or.inl h
        · exact Or.inr (List.mem_cons_of_mem k h)
      · intro k2 hk2
        rcases List.mem_cons.mp hk2 with h2 | h2
        · subst h2
          exact le_trans (Nat.le_of_not_lt hk) hle
        · exact hall k2 h2

theorem mostCommon_spec {α : Type} [DecidableEq α] (l : List α) (hne : l ≠ []) :
    ∃ m, AspectCritique.mostCommon l = some m ∧ m ∈ l ∧
      ∀ a ∈ l, l.count a ≤ l.count m := by
  rcases hk : AspectCritique.uniqueKeys l with _ | ⟨k0, rest⟩
  · exfalso
    rcases List.exists_mem_of_ne_nil l hne with ⟨a, ha⟩
    have : a ∈ AspectCritique.uniqueKeys l := (mem_uniqueKeys l a).mpr ha
    rw [hk] at this
    exact List.not_mem_nil a this
  · obtain ⟨m, hm, hmem, hle, hall⟩ := foldl_mostCommon_max l rest k0
    refine ⟨m, ?_, ?_, ?_⟩
    · rw [AspectCritique.mostCommon, hk, List.foldl_cons]
      exact hm
    · have : m ∈ AspectCritique.uniqueKeys l := by
        rw [hk]
        rcases hmem with h | h
        · exact h ▸ List.mem_cons_self k0 rest
        · exact List.mem_cons_of_mem k0 h
      exact (mem_uniqueKeys l m).mp this
    · intro a ha
      have : a ∈ AspectCritique.uniqueKeys l := (mem_uniqueKeys l a).mpr ha
      rw [hk] at this
      rcases List.mem_cons.mp this with h2 | h2
      · subst h2; exact hle
      · exact hall a h2

/-- C7: after construction the stored strictness equals the configured value
when odd and that value plus one when even (4 becomes 5), hence is always
odd; this stored value drives scoring: with strictness 1 the score is the
first sample's mapped verdict directly, and with strictness above 1 it is a
most frequent mapped verdict across the samples. -/
theorem c7_strictness_odd_majority (nm df : String) (s : Int)
    (hn : nm ≠ "") (hd : df ≠ "") :
    ∃ s2, AspectCritique.post_init nm df s = .ok s2 ∧
      (s % 2 ≠ 0 → s2 = s) ∧ (s % 2 = 0 → s2 = s + 1) ∧ s2 % 2 ≠ 0 ∧
      (∀ (r : Option String) (rest : List (Option String)),
        AspectCritique.compute_score 1 (r :: rest) = .ok (AspectCritique.answer_dict r)) ∧
      (s2 > 1 → ∀ responses : List (Option String), responses ≠ [] →
        ∃ m, AspectCritique.compute_score s2 responses = .ok m ∧
          m ∈ responses.map AspectCritique.answer_dict ∧
          ∀ a ∈ responses.map AspectCritique.answer_dict,
            @List.count (Option ℚ) instBEqOfDecidableEq a
                (responses.map AspectCritique.answer_dict) ≤
              @List.count (Option ℚ) instBEqOfDecidableEq m
                (responses.map AspectCritique.answer_dict)) := by
  refine ⟨if s % 2 ≠ 0 then s else s + 1, ?_, ?_, ?_, ?_, ?_, ?_⟩
  · rw [AspectCritique.post_init, if_neg hn, if_neg hd]
  · intro h; rw [if_pos h]
  · intro h
    have h2 : ¬ s % 2 ≠ 0 := by omega
    rw [if_neg h2]
  · by_cases h : s % 2 ≠ 0
    · rw [if_pos h]; exact h
    · rw [if_neg h]; omega
  · intro r rest
    rw [AspectCritique.compute_score.eq_def, if_neg (by omega : ¬ (1 : Int) > 1)]
  · intro hgt responses hresp
    have hne : responses.map AspectCritique.answer_dict ≠ [] := by
      intro hcontra
      exact hresp (List.map_eq_nil_iff.mp hcontra)
    obtain ⟨m, hm, hmem, hmax⟩ := mostCommon_spec _ hne
    refine ⟨m, ?_, hmem, hmax⟩
    rw [AspectCritique.compute_score.eq_def, if_pos hgt, hm]

theorem c7_witness :
    ∃ s2, AspectCritique.post_init "harmfulness" "defn" 4 = .ok s2 ∧
      s2 = 5 ∧ s2 % 2 ≠ 0 := by
  obtain ⟨s2, hok, hodd, heven, hoddity, h1, hmaj⟩ :=
    c7_strictness_odd_majority "harmfulness" "defn" 4 (by decide) (by decide)
  exact ⟨s2, hok, heven (by decide), hoddity⟩

/-- C5: the AnswerRelevancy per-row score is the arithmetic mean of the
cosine similarities dot(g,q)/(norm(g)*norm(q)) between the reference
question embedding and each generated question embedding, multiplied by 0
when any parsed response is flagged noncommittal and by 1 otherwise, so a
single noncommittal flag forces the score to 0; the spec's example row
scores mean(1,0) = 1/2. -/
theorem c5_similarity_gated_mean :
    (∀ (q : List ℝ) (gs : List (List ℝ)) (flags : List Bool),
      flags.any id = true → AnswerRelevancy.calculate_score q gs flags = 0) ∧
    (∀ (q : List ℝ) (gs : List (List ℝ)) (flags : List Bool),
      flags.any id = false →
        AnswerRelevancy.calculate_score q gs flags =
          (gs.map (fun g => AnswerRelevancy.np_dot g q /
            (AnswerRelevancy.np_norm g * AnswerRelevancy.np_norm q))).sum /
            (gs.length : ℝ)) ∧
    AnswerRelevancy.calculate_score [1, 0] [[1, 0], [0, 1]] [false, false] = 1 / 2 := by
  refine ⟨?_, ?_, ?_⟩
  · intro q gs flags h
    simp [AnswerRelevancy.calculate_score, h]
  · intro q gs flags h
    simp [AnswerRelevancy.calculate_score, h, AnswerRelevancy.np_mean,
      AnswerRelevancy.calculate_similarity, List.length_map]
  · have hq : AnswerRelevancy.np_norm [(1 : ℝ), 0] = 1 := by
      have hd : AnswerRelevancy.np_dot [(1 : ℝ), 0] [(1 : ℝ), 0] = 1 := by
        norm_num [AnswerRelevancy.np_dot]
      rw [AnswerRelevancy.np_norm, hd, Real.sqrt_one]
    have hg : AnswerRelevancy.np_norm [(0 : ℝ), 1] = 1 := by
      have hd : AnswerRelevancy.np_dot [(0 : ℝ), 1] [(0 : ℝ), 1] = 1 := by
        norm_num [AnswerRelevancy.np_dot]
      rw [AnswerRelevancy.np_norm, hd, Real.sqrt_one]
    rw [AnswerRelevancy.calculate_score]
    norm_num [AnswerRelevancy.calculate_similarity, AnswerRelevancy.np_mean,
      AnswerRelevancy.np_dot, hq, hg]

theorem c5_witness :
    AnswerRelevancy.calculate_score [1, 0] [[1, 0], [0, 1]] [true, false] = 0 :=
  c5_similarity_gated_mean.1 [1, 0] [[1, 0], [0, 1]] [true, false] rfl

/-- C2 (code bug): a values dictionary with a non-empty instruction, an
empty input_keys list, a non-empty output key and no examples passes
validate_prompt, because line 61 of prompt.py compares `instruction` (never
equal to a list) instead of `input_keys` against the empty list; the
documented "input_keys cannot be empty" error is unreachable for this
input. -/
theorem c2_empty_input_keys_accepted (instr okey ot : String)
    (hi : instr ≠ "") (ho : okey ≠ "") :
    Prompt.validate_prompt ⟨some (.str instr), [], some [], some okey, ot⟩ =
      .ok ⟨some (.str instr), [], some [], some okey, ot⟩ := by
  have h1 : Prompt.eqEmptyStr (some (Json.str instr)) = false := by
    rw [Prompt.eqEmptyStr.eq_def]
    split
    · rename_i heq
      injection heq with heq2
      injection heq2 with heq3
      exact absurd heq3 hi
    · rfl
  have h2 : Prompt.eqEmptyList (some (Json.str instr)) = false := rfl
  simp [Prompt.validate_prompt, h1, h2, ho]

theorem c2_witness :
    Prompt.validate_prompt ⟨some (.str "instr"), [], some [], some "out", "json"⟩ =
      .ok ⟨some (.str "instr"), [], some [], some "out", "json"⟩ :=
  c2_empty_input_keys_accepted "instr" "out" "json" (by decide) (by decide)

/-- C1 (code bug): save writes the flat pydantic field dictionary, but _load
indexes the parsed file with "kwargs"; on a cache hit for a file written by
save, adapt therefore raises KeyError - no translation calls are made, but
no Template is returned either, so the cache round-trip fails for every
prompt. -/
theorem c1_cache_roundtrip_keyerror (p : Prompt) (language : String)
    (cache : List ((String × String) × Json))
    (hhit : cache.lookup (language, p.name) = some p.saved_file) :
    Prompt.adapt_cached p language cache = some (.error (.keyError "kwargs")) := by
  rw [Prompt.adapt_cached.eq_def, hhit]
  rfl

theorem c1_witness :
    Prompt.adapt_cached
      ⟨"question_generation", "inst", [], ["q"], "out", "json", "hindi"⟩ "hindi"
      [(("hindi", "question_generation"),
        Prompt.saved_file
          ⟨"question_generation", "inst", [], ["q"], "out", "json", "hindi"⟩)] =
      some (.error (.keyError "kwargs")) :=
  c1_cache_roundtrip_keyerror
    ⟨"question_generation", "inst", [], ["q"], "out", "json", "hindi"⟩ "hindi"
    [(("hindi", "question_generation"),
      Prompt.saved_file
        ⟨"question_generation", "inst", [], ["q"], "out", "json", "hindi"⟩)] rfl

/-! Helper lemmas for Python string formatting. -/

theorem except_map_error {α β : Type} (f : α → β) (x : Except PyErr α) (e : PyErr)
    (h : x.map f = .error e) : x = .error e := by
  cases x with
  | ok a => simp [Except.map] at h
  | error e2 => simpa [Except.map] using h

theorem pyFormatGo_no_paramMismatch (kw : List (String × List Char)) (fuel : Nat) :
    ∀ (s : List Char) (e r : List String),
      pyFormatGo kw fuel s ≠ .error (.paramMismatch e r) := by
  induction fuel using Nat.strong_induction_on with
  | _ fuel ih =>
    intro s e r h
    rw [pyFormatGo.eq_def] at h
    split at h
    · simp at h
    · simp at h
    · rename_i heq
      exact ih _ (by omega) _ _ _ (except_map_error _ _ _ h)
    · rename_i heq
      exact ih _ (by omega) _ _ _ (except_map_error _ _ _ h)
    · simp at h
    · rename_i heq
      split at h
      · simp at h
      · split at h
        · simp at h
        · split at h
          · simp at h
          · exact ih _ (by omega) _ _ _ (except_map_error _ _ _ h)
    · rename_i heq
      exact ih _ (by omega) _ _ _ (except_map_error _ _ _ h)

theorem pySetEq_iff (a b : List String) :
    pySetEq a b = true ↔ a.toFinset = b.toFinset := by
  rw [pySetEq]
  simp only [Bool.and_eq_true, List.all_eq_true]
  constructor
  · rintro ⟨h1, h2⟩
    apply Finset.ext
    intro x
    simp only [List.mem_toFinset]
    constructor
    · intro hx
      simpa using h1 x hx
    · intro hx
      simpa using h2 x hx
  · intro hset
    have hmem : ∀ x : String, x ∈ a ↔ x ∈ b := by
      intro x
      have := Finset.ext_iff.mp hset x
      simpa only [List.mem_toFinset] using this
    constructor
    · intro x hx
      simpa using (hmem x).mp hx
    · intro x hx
      simpa using (hmem x).mpr hx

/-- C9: format raises the parameter-mismatch error naming both the expected
and the received key sets exactly when the supplied kwargs key set differs
from input_keys as a set (order-independent, so both a missing and an extra
key fail); with an exactly matching key set the call proceeds to string
substitution, which never produces the parameter-mismatch error. -/
theorem c9_format_param_mismatch (p : Prompt) (kwargs : List (String × List Char)) :
    (Prompt.format p kwargs =
        .error (.paramMismatch p.input_keys (kwargs.map Prod.fst)) ↔
      p.input_keys.toFinset ≠ (kwargs.map Prod.fst).toFinset) ∧
    (p.input_keys.toFinset = (kwargs.map Prod.fst).toFinset →
      Prompt.format p kwargs = pyStrFormat p.to_string kwargs) := by
  have hforward : p.input_keys.toFinset = (kwargs.map Prod.fst).toFinset →
      Prompt.format p kwargs = pyStrFormat p.to_string kwargs := by
    intro hset
    have hbool := (pySetEq_iff _ _).mpr hset
    rw [Prompt.format, if_pos hbool]
  refine ⟨⟨?_, ?_⟩, hforward⟩
  · intro h hset
    rw [hforward hset, pyStrFormat] at h
    exact pyFormatGo_no_paramMismatch kwargs _ _ _ _ h
  · intro hset
    have hbool : ¬ pySetEq p.input_keys (kwargs.map Prod.fst) = true := fun hb =>
      hset ((pySetEq_iff _ _).mp hb)
    rw [Prompt.format, if_neg hbool]

theorem c9_witness :
    Prompt.format ⟨"n", "inst", [], ["a", "b"], "out", "json", "en"⟩ [("a", ['x'])] =
      .error (.paramMismatch ["a", "b"] ["a"]) := by
  have h := (c9_format_param_mismatch
    ⟨"n", "inst", [], ["a", "b"], "out", "json", "en"⟩ [("a", ['x'])]).1.mpr (by decide)
  simpa using h

theorem pyFormatGo_cons_other (kw : List (String × List Char)) (fuel : Nat)
    (c : Char) (t : List Char) (h1 : c ≠ '{') (h2 : c ≠ '}') :
    pyFormatGo kw (fuel + 1) (c :: t) = (pyFormatGo kw fuel t).map (c :: ·) := by
  rw [pyFormatGo.eq_def]
  split
  · rename_i heq
    omega
  · rename_i heq
    exact absurd heq (List.cons_ne_nil c t)
  · rename_i heq
    injection heq with hc ht
    exact absurd hc h1
  · rename_i heq
    injection heq with hc ht
    exact absurd hc h2
  · rename_i heq
    injection heq with hc ht
    exact absurd hc h2
  · rename_i heq
    injection heq with hc ht
    exact absurd hc h1
  · rename_i heqf heq
    injection heq with hc ht
    subst hc
    subst ht
    have hf : _ = fuel := Nat.succ_injective heqf.symm
    subst hf
    rfl

theorem pyFormatGo_brace_free_prefix (kw : List (String × List Char)) :
    ∀ (pre t : List Char) (fuel : Nat),
      (∀ c ∈ pre, c ≠ '{' ∧ c ≠ '}') →
      pyFormatGo kw (pre.length + fuel) (pre ++ t) =
        (pyFormatGo kw fuel t).map (pre ++ ·) := by
  intro pre
  induction pre with
  | nil =>
    intro t fuel hfree
    simp only [List.length_nil, Nat.zero_add, List.nil_append]
    cases hx : pyFormatGo kw fuel t with
    | ok a => simp [hx, Except.map]
    | error e => simp [hx, Except.map]
  | cons c pre ih =>
    intro t fuel hfree
    have hc := hfree c (List.mem_cons_self c pre)
    have hlen : (c :: pre).length + fuel = (pre.length + fuel) + 1 := by
      simp only [List.length_cons]
      omega
    rw [hlen, List.cons_append,
      pyFormatGo_cons_other kw (pre.length + fuel) c (pre ++ t) hc.1 hc.2,
      ih t fuel (fun c2 h2 => hfree c2 (List.mem_cons_of_mem c h2))]
    cases hx : pyFormatGo kw fuel t with
    | ok a => simp [hx, Except.map]
    | error e => simp [hx, Except.map]

theorem pyFormatGo_single_close (kw : List (String × List Char)) (fuel : Nat)
    (t : List Char) (h : t.head? ≠ some '}') :
    pyFormatGo kw (fuel + 1) ('}' :: t) =
      .error (.valueError "Single \x7d encountered in format string") := by
  cases t with
  | nil => rfl
  | cons c2 t2 =>
    have hc2 : c2 ≠ '}' := by
      intro hh
      subst hh
      exact h rfl
    rw [pyFormatGo.eq_def]
    split
    · rename_i heq
      omega
    · rename_i heq
      exact absurd heq (List.cons_ne_nil _ _)
    · rename_i heq
      injection heq with hc ht
      exact absurd hc (by decide)
    · rename_i heq
      injection heq with hc ht
      injection ht with hc2eq ht2
      exact absurd hc2eq hc2
    · rfl
    · rename_i heq
      injection heq with hc ht
      exact absurd hc (by decide)
    · rename_i heqf heq
      injection heq with hc ht
      rename_i hclose hopen
      exact absurd hc.symm hclose

theorem foldl_append_extend {α : Type} (g : α → List Char) :
    ∀ (l : List α) (a : List Char),
      ∃ r, l.foldl (fun acc x => acc ++ g x) a = a ++ r := by
  intro l
  induction l with
  | nil => intro a; exact ⟨[], by simp⟩
  | cons x t ih =>
    intro a
    rw [List.foldl_cons]
    obtain ⟨r, hr⟩ := ih (a ++ g x)
    exact ⟨g x ++ r, by rw [hr, List.append_assoc]⟩

theorem foldl_examples_extend (ot : String) :
    ∀ (exs : List Example) (a : List Char),
      ∃ r, exs.foldl (fun acc ex =>
        (ex.foldl (fun a2 kv =>
          a2 ++ '\n' :: (kv.1.data ++ ':' :: ' ' :: Prompt.render_value ot kv.2)) acc)
        ++ ['\n']) a = a ++ r := by
  intro exs
  induction exs with
  | nil => intro a; exact ⟨[], by simp⟩
  | cons ex t ih =>
    intro a
    rw [List.foldl_cons]
    obtain ⟨ri, hri⟩ := foldl_append_extend
      (fun kv : String × Json =>
        '\n' :: (kv.1.data ++ ':' :: ' ' :: Prompt.render_value ot kv.2)) ex a
    obtain ⟨rt, hrt⟩ := ih ((ex.foldl (fun a2 kv =>
      a2 ++ '\n' :: (kv.1.data ++ ':' :: ' ' :: Prompt.render_value ot kv.2)) a) ++ ['\n'])
    refine ⟨ri ++ ['\n'] ++ rt, ?_⟩
    rw [hrt, hri]
    simp [List.append_assoc]

theorem to_string_instruction_prefix (p : Prompt) :
    ∃ rest, p.to_string = p.instruction.data ++ '\n' :: rest := by
  obtain ⟨r1, hr1⟩ := foldl_examples_extend p.output_type p.examples
    (p.instruction.data ++ ['\n'])
  have hbody : ∃ r, p.to_string = (p.instruction.data ++ ['\n']) ++ r := by
    rw [Prompt.to_string]
    rw [hr1]
    by_cases hik : p.input_keys ≠ []
    · rw [if_pos hik]
      by_cases hok : p.output_key ≠ ""
      · rw [if_pos hok]
        refine ⟨r1 ++ ((p.input_keys.flatMap fun k =>
            '\n' :: (k.data ++ ':' :: ' ' :: '\x7b' :: (k.data ++ ['\x7d']))) ++
            '\n' :: (p.output_key.data ++ [':', ' ', '\n'])), ?_⟩
        simp [List.append_assoc]
      · rw [if_neg hok]
        refine ⟨r1 ++ (p.input_keys.flatMap fun k =>
            '\n' :: (k.data ++ ':' :: ' ' :: '\x7b' :: (k.data ++ ['\x7d']))), ?_⟩
        simp [List.append_assoc]
    · rw [if_neg hik]
      by_cases hok : p.output_key ≠ ""
      · rw [if_pos hok]
        refine ⟨r1 ++ '\n' :: (p.output_key.data ++ [':', ' ', '\n']), ?_⟩
        simp [List.append_assoc]
      · rw [if_neg hok]
        exact ⟨r1, rfl⟩
  obtain ⟨r, hr⟩ := hbody
  exact ⟨r, by simpa [List.append_assoc] using hr⟩

/-- C10 counterexample: a Template whose instruction contains literal braces
(doubled ones) formats successfully with exactly matching kwargs, so an
instruction containing a brace does not always make format raise. -/
theorem c10_counterexample :
    (Prompt.format ⟨"n", "\x7b\x7b\x7d\x7d", [], ["a"], "out", "json", "en"⟩
      [("a", ['v'])]).isOk = true := by
  rfl

/-- C10 (amended): the substitution pass runs over the whole rendered string
with the instruction unescaped, so an instruction containing a lone
unmatched close brace (preceded by brace-free text and not immediately
followed by another close brace) makes format raise the Single-brace
substitution error even when kwargs exactly equal input_keys; but braces
forming valid replacement syntax, such as doubled braces, do not raise. -/
theorem c10_amended (p : Prompt) (kwargs : List (String × List Char))
    (pre post : List Char)
    (hinstr : p.instruction.data = pre ++ '}' :: post)
    (hpre : ∀ c ∈ pre, c ≠ '{' ∧ c ≠ '}')
    (hpost : post.head? ≠ some '}')
    (hset : p.input_keys.toFinset = (kwargs.map Prod.fst).toFinset) :
    Prompt.format p kwargs =
      .error (.valueError "Single \x7d encountered in format string") := by
  have hbool := (pySetEq_iff p.input_keys (kwargs.map Prod.fst)).mpr hset
  obtain ⟨rest, hts⟩ := to_string_instruction_prefix p
  rw [Prompt.format, if_pos hbool, pyStrFormat, hts, hinstr]
  have hshape : (pre ++ '}' :: post) ++ '\n' :: rest =
      pre ++ ('}' :: (post ++ '\n' :: rest)) := by
    simp [List.append_assoc]
  rw [hshape]
  have hlen : (pre ++ ('}' :: (post ++ '\n' :: rest))).length + 1 =
      pre.length + ((post ++ '\n' :: rest).length + 1 + 1) := by
    simp only [List.length_append, List.length_cons]
    omega
  rw [hlen, pyFormatGo_brace_free_prefix kwargs pre _ _ hpre]
  have hhead : (post ++ '\n' :: rest).head? ≠ some '}' := by
    cases post with
    | nil => simp
    | cons c t =>
      simp only [List.cons_append, List.head?]
      simpa using hpost
  rw [pyFormatGo_single_close kwargs _ _ hhead]
  rfl

theorem c10_witness :
    Prompt.format ⟨"n", "ab\x7dcd", [], ["a"], "out", "json", "en"⟩ [("a", ['v'])] =
      .error (.valueError "Single \x7d encountered in format string") :=
  c10_amended ⟨"n", "ab\x7dcd", [], ["a"], "out", "json", "en"⟩ [("a", ['v'])]
    ['a', 'b'] ['c', 'd'] (by decide) (by decide) (by decide) (by decide)
